import Mathlib

/-!
Verification model of the `flags` Go package (command-line argument parsing
and sub-command dispatch).  The definitions below are shallow embeddings of
the functions in `flags.go`, keeping the source names where possible.

Modelling conventions:
* Go pointers (destination slots) are modelled by a numeric identity `id`
  plus the pointee value `val` stored inside the `Param` record; mutation
  through the pointer becomes explicit state passing of `Param` values and
  of the per-node parameter list.
* Machine integers are `Int`/`Nat` with explicit two's-complement wrapping
  (`wrapInt`, `wrapUint`) at the destination width, mirroring
  `reflect.Value.SetInt`/`SetUint` followed by re-reading.
* Fallible operations return an `Option Err` alongside the mutated state
  (Go returns `error` while mutating in place, so state must survive the
  error path).
* The modelled value shapes are the built-in ones reachable from the
  claims: integer families, boolean, string, slice, map.  Custom `Parser`
  implementations, floats, duration and datetime are not modelled; none of
  the claims depend on them.
-/

namespace Flags

/-- The closed set of decodable value shapes (dispatch mirrors
`reflect.TypeOf(p.ptr).Elem().Kind()` in `_parseParam`).  Integer shapes
carry their bit width. -/
inductive Shape where
  | sInt (w : Nat)
  | sUint (w : Nat)
  | sBool
  | sString
  | sSlice (e : Shape)
  | sMap (k v : Shape)
deriving Repr, DecidableEq

/-- Runtime values held in destination slots.  A Go map is `vMap none`
while nil (unallocated) and `vMap (some m)` once allocated; `m` is an
insertion-ordered association list. -/
inductive Val where
  | vInt (i : Int)
  | vUint (n : Nat)
  | vBool (b : Bool)
  | vStr (s : String)
  | vList (xs : List Val)
  | vMap (m : Option (List (Val × Val)))
deriving Repr, Inhabited

/-- Zero value of a shape (`reflect.New(typ)`). -/
def Shape.zero : Shape → Val
  | .sInt _ => .vInt 0
  | .sUint _ => .vUint 0
  | .sBool => .vBool false
  | .sString => .vStr ""
  | .sSlice _ => .vList []
  | .sMap _ _ => .vMap none

/-- Structural type name, standing in for `reflect.Type.String()`
(used only inside error values). -/
def typeName : Shape → String
  | .sInt w => "int" ++ toString w
  | .sUint w => "uint" ++ toString w
  | .sBool => "bool"
  | .sString => "string"
  | .sSlice e => "[]" ++ typeName e
  | .sMap k v => "map[" ++ typeName k ++ "]" ++ typeName v

/-- Is `pre` a leading segment of `s`? (char-list core of
`strings.HasPrefix`). -/
def isPre : List Char → List Char → Bool
  | [], _ => true
  | _ :: _, [] => false
  | a :: as, b :: bs => a = b ∧ isPre as bs

/-- `strings.HasPrefix(s, pre)`. -/
def goHasPrefix (s pre : String) : Bool :=
  isPre pre.toList s.toList

/-- Scanning core of `strings.Split` for a non-empty separator: emit the
accumulated chunk at each non-overlapping occurrence of `sep`, scanning
left to right.  `fuel` (≥ the number of remaining characters) makes the
recursion structural. -/
def splitOnFuel (sep : List Char) : Nat → List Char → List Char → List (List Char)
  | _, [], acc => [acc.reverse]
  | 0, s, acc => [acc.reverse ++ s]
  | fuel + 1, c :: rest, acc =>
    if isPre sep (c :: rest) then
      acc.reverse :: splitOnFuel sep fuel ((c :: rest).drop sep.length) []
    else splitOnFuel sep fuel rest (c :: acc)

/-- Embedding of Go `strings.Split`: with a non-empty separator, split
around every non-overlapping occurrence (splitting `""` yields `[""]`);
with an empty separator, split into individual characters. -/
def goSplit (s sep : String) : List String :=
  if sep = "" then s.toList.map (fun c => String.mk [c])
  else (splitOnFuel sep.toList s.toList.length s.toList []).map String.mk

/-- One registered option (`param` in flags.go).  `id` models the
destination pointer's identity and `val` the current pointee. -/
structure Param where
  id : Nat
  shape : Shape
  typ : String
  short : String
  long : String
  dft : Option Val
  sep1 : String
  sep2 : String
  parsed : Bool
  val : Val
deriving Repr

instance : Inhabited Param :=
  ⟨⟨0, .sBool, "", "", "", none, "", "", false, .vBool false⟩⟩

/-- The `arguments` cursor: token list, position, and the aligned flag. -/
structure Arguments where
  args : List String
  idx : Nat
  align : Bool
deriving Repr, DecidableEq

/-- `newArgs`: multi-token cursor (aligned = false). -/
def newArgs (args : List String) : Arguments :=
  { args := args, idx := 0, align := false }

/-- `newArg`: single isolated value string (aligned = true). -/
def newArg (arg : String) : Arguments :=
  { args := [arg], idx := 0, align := true }

/-- `arguments.end`. -/
def Arguments.atEnd (s : Arguments) : Bool :=
  s.idx ≥ s.args.length

/-- `arguments.next`: returns `""` without advancing when exhausted. -/
def Arguments.next (s : Arguments) : String × Arguments :=
  if s.idx ≥ s.args.length then ("", s)
  else (s.args.getD s.idx "", { s with idx := s.idx + 1 })

/-- Error outcomes.  Go wraps decode errors with the command's name and the
offending flag text via `_parseParamErr`; here each constructor carries
those directly.  `fuelOut` is an artifact of the fuel-based recursion in
the router model and is unreachable for adequately fueled runs. -/
inductive Err where
  | help
  | fuelOut
  | unknownOption (fsName arg : String)
  | unknownSubcmd (fsName arg : String)
  | noInput (fsName arg : String)
  | synErr (fsName arg s : String)
  | rangeErr (fsName arg s : String)
  | overflow (fsName arg : String) (v : Int) (typ : String)
  | overflowU (fsName arg : String) (v : Nat) (typ : String)
  | invalidBool (fsName arg s : String)
  | kvParts (fsName arg pair sep : String) (n : Nat)
  | unsupported (fsName arg typ : String)
deriving Repr, DecidableEq

/-- Numeric parse failure kinds of `strconv.ParseInt`/`ParseUint`. -/
inductive NumErr where
  | syn
  | rng
deriving Repr, DecidableEq

def isDigit (c : Char) : Bool :=
  '0' ≤ c ∧ c ≤ '9'

def digitsVal (cs : List Char) : Nat :=
  cs.foldl (fun a c => a * 10 + (c.toNat - 48)) 0

/-- Strip an optional leading sign, reporting whether it was `-`. -/
def splitSign : List Char → Bool × List Char
  | '-' :: rest => (true, rest)
  | '+' :: rest => (false, rest)
  | rest => (false, rest)

/-- Embedding of `strconv.ParseInt(s, 10, 64)`: optional sign, non-empty
run of decimal digits, 64-bit signed range check. -/
def parseInt10 (s : String) : Except NumErr Int :=
  let sg := splitSign s.toList
  let ds := sg.2
  if ds.isEmpty ∨ ¬ ds.all isDigit then .error .syn
  else
    let v : Int := if sg.1 then -(digitsVal ds : Int) else (digitsVal ds : Int)
    if v < -(2 ^ 63) ∨ v ≥ 2 ^ 63 then .error .rng
    else .ok v

/-- Embedding of `strconv.ParseUint(s, 10, 64)`: no sign permitted,
non-empty run of decimal digits, 64-bit range check. -/
def parseUint10 (s : String) : Except NumErr Nat :=
  let ds := s.toList
  if ds.isEmpty ∨ ¬ ds.all isDigit then .error .syn
  else
    let v := digitsVal ds
    if v ≥ 2 ^ 64 then .error .rng
    else .ok v

/-- `reflect.Value.SetInt` into width `w` followed by `Int()`:
two's-complement truncation with sign extension. -/
def wrapInt (w : Nat) (i : Int) : Int :=
  (i + 2 ^ (w - 1)) % 2 ^ w - 2 ^ (w - 1)

/-- `reflect.Value.SetUint` into width `w` followed by `Uint()`. -/
def wrapUint (w : Nat) (n : Nat) : Nat :=
  n % 2 ^ w

def numErrToErr (fsName arg s : String) : NumErr → Err
  | .syn => .synErr fsName arg s
  | .rng => .rangeErr fsName arg s

/-- `_parseInts` (flags.go:1064): parse base-10 into 64-bit, store into the
width-`w` destination, re-read and compare; mismatch is an overflow error
naming the option's declared type. -/
def _parseInts (fsName : String) (args : Arguments) (arg : String) (w : Nat)
    (p : Param) : Param × Arguments × Option Err :=
  if args.atEnd then (p, args, some (.noInput fsName arg))
  else
    let sa := args.next
    match parseInt10 sa.1 with
    | .error e => (p, sa.2, some (numErrToErr fsName arg sa.1 e))
    | .ok i =>
      let p := { p with val := .vInt (wrapInt w i) }
      if wrapInt w i = i then (p, sa.2, none)
      else (p, sa.2, some (.overflow fsName arg i p.typ))

/-- `_parseUints` (flags.go:1082). -/
def _parseUints (fsName : String) (args : Arguments) (arg : String) (w : Nat)
    (p : Param) : Param × Arguments × Option Err :=
  if args.atEnd then (p, args, some (.noInput fsName arg))
  else
    let sa := args.next
    match parseUint10 sa.1 with
    | .error e => (p, sa.2, some (numErrToErr fsName arg sa.1 e))
    | .ok n =>
      let p := { p with val := .vUint (wrapUint w n) }
      if wrapUint w n = n then (p, sa.2, none)
      else (p, sa.2, some (.overflowU fsName arg n p.typ))

/-- `_parseBool` (flags.go:1126): in multi mode, presence alone sets true
and consumes nothing; in aligned mode the token must be exactly `true` or
`false`. -/
def _parseBool (fsName : String) (args : Arguments) (arg : String)
    (p : Param) : Param × Arguments × Option Err :=
  if ¬ args.align then ({ p with val := .vBool true }, args, none)
  else
    let sa := args.next
    if sa.1 = "true" then ({ p with val := .vBool true }, sa.2, none)
    else if sa.1 = "false" then ({ p with val := .vBool false }, sa.2, none)
    else (p, sa.2, some (.invalidBool fsName arg sa.1))

/-- `_parseString` (flags.go:1145). -/
def _parseString (fsName : String) (args : Arguments) (arg : String)
    (p : Param) : Param × Arguments × Option Err :=
  if args.atEnd then (p, args, some (.noInput fsName arg))
  else
    let sa := args.next
    ({ p with val := .vStr sa.1 }, sa.2, none)

/-- `reflect.Append(val, elem)` on a slice destination. -/
def Val.appendElem : Val → Val → Val
  | .vList xs, v => .vList (xs ++ [v])
  | _, v => .vList [v]

/-- Go map-key equality.  The registration API constrains keys to the
scalar `KeyTypes`, so only scalar values ever appear as map keys. -/
def Val.keyBeq : Val → Val → Bool
  | .vInt a, .vInt b => a = b
  | .vUint a, .vUint b => a = b
  | .vBool a, .vBool b => a = b
  | .vStr a, .vStr b => a = b
  | _, _ => false

/-- Association-list lookup, standing in for `reflect.Value.MapIndex`. -/
def assocGet (m : List (Val × Val)) (key : Val) : Option Val :=
  (m.find? (fun kv => Val.keyBeq kv.1 key)).map (fun kv => kv.2)

/-- Association-list update-or-append, standing in for
`reflect.Value.SetMapIndex`. -/
def assocSet (m : List (Val × Val)) (key v : Val) : List (Val × Val) :=
  match m with
  | [] => [(key, v)]
  | kv0 :: rest =>
    if Val.keyBeq kv0.1 key then (key, v) :: rest
    else kv0 :: assocSet rest key v

/-- `reflect.AppendSlice(ori, v)`. -/
def vAppendSlice : Val → Val → Val
  | .vList xs, .vList ys => .vList (xs ++ ys)
  | a, _ => a

/-- The map-write step of `_parseMap` (flags.go:1260-1271): allocate the
map lazily, and when the value type is a slice append to an existing
entry for the key instead of overwriting it. -/
def Val.mapSet (mv : Val) (vt : Shape) (key v : Val) : Val :=
  let m : List (Val × Val) :=
    match mv with
    | .vMap (some m) => m
    | _ => []
  match vt with
  | .sSlice _ =>
    match assocGet m key with
    | some ori => .vMap (some (assocSet m key (vAppendSlice ori v)))
    | none => .vMap (some (assocSet m key v))
  | _ => .vMap (some (assocSet m key v))

/-- `typ.Kind() == reflect.Map` on a shape. -/
def Shape.isMap : Shape → Bool
  | .sMap _ _ => true
  | _ => false

/-- `_parseSlice` (flags.go:1153): decode exactly one element of shape `e`
from the cursor and append it to the destination slice.  The temporary swap
of `p.ptr` to a fresh element pointer before the recursive `_parseParam`
call is modelled by decoding into a fresh element param `q` (which keeps
the option's separators, as the swapped param does in the source) with the
element decoder `decE` and appending its value. -/
def _parseSlice (fsName : String) (args : Arguments) (arg : String)
    (e : Shape) (decE : Arguments → Param → Param × Arguments × Option Err)
    (p : Param) : Param × Arguments × Option Err :=
  if args.atEnd then (p, args, some (.noInput fsName arg))
  else
    let q := { p with shape := e, val := Shape.zero e }
    match decE args q with
    | (_, args1, some err) => (p, args1, some err)
    | (q1, args1, none) => ({ p with val := Val.appendElem p.val q1.val }, args1, none)

/-- The element loop of `_parseSliceAlign` (flags.go:1201-1213): decode
each split piece as one aligned element of shape `e` and append it; a
failed element returns its error, keeping the elements appended so far
(the Go loop mutates the destination in place before returning). -/
def _parseSliceAlignElems (fsName : String) (elems : List String) (arg : String)
    (e : Shape) (decE : Arguments → Param → Param × Arguments × Option Err)
    (p : Param) : Param × Option Err :=
  match elems with
  | [] => (p, none)
  | s :: rest =>
    let q := { p with shape := e, val := Shape.zero e }
    match decE (newArg s) q with
    | (_, _, some err) => (p, some err)
    | (q1, _, none) =>
      _parseSliceAlignElems fsName rest arg e decE
        { p with val := Val.appendElem p.val q1.val }

/-- `_parseSliceAlign` (flags.go:1182): one token carries the whole list.
If the element type is a map, the token is handed to `_parseSlice` as a
single (non-aligned) occurrence; otherwise the token is split on `sep1`
and each piece is decoded as one aligned element and appended. -/
def _parseSliceAlign (fsName : String) (args : Arguments) (arg : String)
    (e : Shape) (decE : Arguments → Param → Param × Arguments × Option Err)
    (p : Param) : Param × Arguments × Option Err :=
  if args.atEnd then (p, args, some (.noInput fsName arg))
  else if e.isMap then
    let sa := args.next
    match _parseSlice fsName (newArgs [sa.1]) arg e decE p with
    | (p1, _, err) => (p1, sa.2, err)
  else
    let sa := args.next
    match _parseSliceAlignElems fsName (goSplit sa.1 p.sep1) arg e decE p with
    | (p1, err) => (p1, sa.2, err)

/-- The pair loop of `_parseMap` (flags.go:1231-1272): split each pair on
`sep2` (exactly two parts required), decode key and value with fresh
single-token non-aligned cursors and fresh params (empty separators, as
in the source) using the key and value decoders, and write via
`Val.mapSet`; a failure returns its error, keeping the writes made so
far. -/
def _parseMapPairs (fsName : String) (pairs : List String) (arg : String)
    (k v : Shape)
    (decK decV : Arguments → Param → Param × Arguments × Option Err)
    (p : Param) : Param × Option Err :=
  match pairs with
  | [] => (p, none)
  | pair :: rest =>
    let kvs := goSplit pair p.sep2
    if kvs.length ≠ 2 then (p, some (.kvParts fsName arg pair p.sep2 kvs.length))
    else
      let kq : Param := { id := 0, shape := k, typ := typeName k, short := "",
                          long := "", dft := none, sep1 := "", sep2 := "",
                          parsed := false, val := Shape.zero k }
      match decK (newArgs [kvs.getD 0 ""]) kq with
      | (_, _, some err) => (p, some err)
      | (kq1, _, none) =>
        let vq : Param := { id := 0, shape := v, typ := typeName v, short := "",
                            long := "", dft := none, sep1 := "", sep2 := "",
                            parsed := false, val := Shape.zero v }
        match decV (newArgs [kvs.getD 1 ""]) vq with
        | (_, _, some err) => (p, some err)
        | (vq1, _, none) =>
          _parseMapPairs fsName rest arg k v decK decV
            { p with val := Val.mapSet p.val v kq1.val vq1.val }

/-- `_parseMap` (flags.go:1217): consume one token; an empty token is a
no-op; otherwise split on `sep1` into pairs and process them with
`_parseMapPairs`. -/
def _parseMap (fsName : String) (args : Arguments) (arg : String)
    (k v : Shape)
    (decK decV : Arguments → Param → Param × Arguments × Option Err)
    (p : Param) : Param × Arguments × Option Err :=
  if args.atEnd then (p, args, some (.noInput fsName arg))
  else
    let sa := args.next
    if sa.1 = "" then (p, sa.2, none)
    else
      match _parseMapPairs fsName (goSplit sa.1 p.sep1) arg k v decK decV p with
      | (p1, err) => (p1, sa.2, err)

/-- The kind dispatch of `_parseParam` (flags.go:1024-1046), by structural
recursion on the destination shape; composite shapes hand the recursive
codec for their element/key/value shapes to the slice and map helpers
(this is the recursive `fs._parseParam` call made by the source after
swapping the destination pointer). -/
def _parseParamGo : Shape → String → Arguments → String → Param →
    Param × Arguments × Option Err
  | .sInt w, fsName, args, arg, p => _parseInts fsName args arg w p
  | .sUint w, fsName, args, arg, p => _parseUints fsName args arg w p
  | .sBool, fsName, args, arg, p => _parseBool fsName args arg p
  | .sString, fsName, args, arg, p => _parseString fsName args arg p
  | .sSlice e, fsName, args, arg, p =>
    if args.align then
      _parseSliceAlign fsName args arg e
        (fun a q => _parseParamGo e fsName a arg q) p
    else
      _parseSlice fsName args arg e
        (fun a q => _parseParamGo e fsName a arg q) p
  | .sMap k v, fsName, args, arg, p =>
    _parseMap fsName args arg k v
      (fun a q => _parseParamGo k fsName a arg q)
      (fun a q => _parseParamGo v fsName a arg q) p

/-- `_parseParam` (flags.go:1012): marks the option supplied
(`p.parsed = true`) before any decoding is attempted, then dispatches on
the destination's kind. -/
def _parseParam (fsName : String) (args : Arguments) (arg : String)
    (p : Param) : Param × Arguments × Option Err :=
  _parseParamGo p.shape fsName args arg { p with parsed := true }

/-! ## Router (command tree and option matching) -/

/-- Per-param step of `setDft` (flags.go:851): write the default into the
destination only when the option was not supplied and a default exists. -/
def setDftP (p : Param) : Param :=
  match p.dft with
  | some d => if ¬ p.parsed then { p with val := d } else p
  | none => p

/-- `setDft` over a node's parameter list. -/
def setDftParams (ps : List Param) : List Param :=
  ps.map setDftP

/-- `Parsed` (flags.go:842): look up the param registered for the given
destination pointer and report its supplied flag (`paramOf` resolves a
pointer to its param object; for a param of this node that object is the
registry entry itself). -/
def Parsed (ps : List Param) (ptrId : Nat) : Bool :=
  match ps.find? (fun p => p.id = ptrId) with
  | some p => p.parsed
  | none => false

/-- `isBoolParam` (flags.go:922): the destination is boolean-shaped (the
modelled shapes contain no custom `Parser` implementations, so the
`Parser` escape hatch is always false here). -/
def isBoolParam (p : Param) : Bool :=
  p.shape = .sBool

/-- The scanning pass of the clustered branch of `_parseShort`
(flags.go:953-973): for each character, find the first matching short
option; boolean-shaped matches are set true immediately, others are
collected (as registry positions) in encounter order; an unmatched `h`
signals Help, any other unmatched character is an unknown option. -/
def clusterScan (fsName : String) (ps : List Param) (chars : List Char)
    (acc : List Nat) : List Param × List Nat × Option Err :=
  match chars with
  | [] => (ps, acc, none)
  | c :: rest =>
    match ps.findIdx? (fun p => p.short ≠ "" ∧ p.short = String.mk [c]) with
    | some j =>
      let p := ps.getD j default
      if isBoolParam p then
        clusterScan fsName (ps.set j { p with val := .vBool true }) rest acc
      else clusterScan fsName ps rest (acc ++ [j])
    | none =>
      if c = 'h' then (ps, acc, some .help)
      else (ps, acc, some (.unknownOption fsName ("-" ++ String.mk [c])))

/-- The decoding pass of the clustered branch of `_parseShort`
(flags.go:975-982): decode the collected non-boolean options one after the
other from the remaining input (the caller passes the collected list
already reversed). -/
def decodeCollected (fsName : String) (ps : List Param) (args : Arguments)
    (arg : String) (idxs : List Nat) : List Param × Arguments × Option Err :=
  match idxs with
  | [] => (ps, args, none)
  | j :: rest =>
    match _parseParam fsName args arg (ps.getD j default) with
    | (p1, args1, some e) => (ps.set j p1, args1, some e)
    | (p1, args1, none) => decodeCollected fsName (ps.set j p1) args1 arg rest

/-- `_parseShort` (flags.go:930): single-character short options decode
directly; multi-character tokens are clustered groups handled by
`clusterScan` and then `decodeCollected` on the reversed collection. -/
def _parseShort (fsName : String) (ps : List Param) (args : Arguments)
    (arg : String) : List Param × Arguments × Option Err :=
  let rr := (arg.drop 1).toList
  if rr.length = 0 then (ps, args, some (.unknownOption fsName arg))
  else if rr.length = 1 then
    match ps.findIdx? (fun p => p.short ≠ "" ∧ "-" ++ p.short = arg) with
    | none =>
      if arg = "-h" then (ps, args, some .help)
      else (ps, args, some (.unknownOption fsName arg))
    | some j =>
      match _parseParam fsName args arg (ps.getD j default) with
      | (p1, args1, e) => (ps.set j p1, args1, e)
  else
    match clusterScan fsName ps rr [] with
    | (ps1, _, some e) => (ps1, args, some e)
    | (ps1, idxs, none) => decodeCollected fsName ps1 args arg idxs.reverse

/-- `_parseLong` (flags.go:985): match `--name` exactly or the
`--name=value` form; in the latter case the value is decoded from an
aligned single-token cursor. -/
def _parseLong (fsName : String) (ps : List Param) (args : Arguments)
    (arg : String) : List Param × Arguments × Option Err :=
  match ps.findIdx? (fun p =>
      p.long ≠ "" ∧ (arg = "--" ++ p.long ∨ goHasPrefix arg ("--" ++ p.long ++ "="))) with
  | none =>
    if arg = "--help" then (ps, args, some .help)
    else (ps, args, some (.unknownOption fsName arg))
  | some j =>
    let p := ps.getD j default
    if goHasPrefix arg ("--" ++ p.long ++ "=") then
      let value := arg.drop (p.long.length + 3)
      match _parseParam fsName (newArg value) arg p with
      | (p1, _, e) => (ps.set j p1, args, e)
    else
      match _parseParam fsName args arg p with
      | (p1, args1, e) => (ps.set j p1, args1, e)

/-- Positional lookup of `_parseSubcmd` (flags.go:897-907): count
anonymous (no short/long name) options in registration order and return
the display index and registry position of the first unsupplied one. -/
def findPosAux (ps : List Param) (j index : Nat) : Option (Nat × Nat) :=
  match ps with
  | [] => none
  | p :: rest =>
    if p.short = "" ∧ p.long = "" then
      let index := index + 1
      if ¬ p.parsed then some (index, j)
      else findPosAux rest (j + 1) index
    else findPosAux rest (j + 1) index

/-- A command node (`FlagSet` as seen by the parse phase): name, aliases,
registered options, and child nodes. -/
inductive FS where
  | node : String → List String → List Param → List FS → FS

def FS.name : FS → String
  | .node n _ _ _ => n

def FS.aliases : FS → List String
  | .node _ a _ _ => a

def FS.params : FS → List Param
  | .node _ _ ps _ => ps

def FS.cmds : FS → List FS
  | .node _ _ _ cs => cs

def FS.withParams : FS → List Param → FS
  | .node n a _ cs, ps => .node n a ps cs

instance : Inhabited FS := ⟨.node "" [] [] []⟩

mutual

/-- `_parse` (flags.go:859): the routing loop.  Long options, short
options, or the first bare token (defaults applied, then sub-command /
positional / `help` handling).  Exhaustion applies defaults and finishes
at the current node.  `fuel` bounds the recursion; every step consumes a
token, so any fuel beyond the token count is adequate. -/
def FS._parse (fuel : Nat) (fs : FS) (args : Arguments) : FS × Option Err :=
  match fuel with
  | 0 => (fs, some .fuelOut)
  | fuel + 1 =>
    if args.atEnd then (fs.withParams (setDftParams fs.params), none)
    else
      let aa := args.next
      if goHasPrefix aa.1 "--" then
        match _parseLong fs.name fs.params aa.2 aa.1 with
        | (ps, _, some e) => (fs.withParams ps, some e)
        | (ps, args2, none) => FS._parse fuel (fs.withParams ps) args2
      else if goHasPrefix aa.1 "-" then
        match _parseShort fs.name fs.params aa.2 aa.1 with
        | (ps, _, some e) => (fs.withParams ps, some e)
        | (ps, args2, none) => FS._parse fuel (fs.withParams ps) args2
      else
        FS._parseSubcmd fuel (fs.withParams (setDftParams fs.params)) aa.2 aa.1
termination_by structural fuel

/-- `_parseSubcmd` (flags.go:885): recurse into a matching child node, or
bind the token to the first unsupplied positional option (aligned
single-token decode) and resume, or signal Help for the literal `help`,
or fail with an unknown-sub-command error. -/
def FS._parseSubcmd (fuel : Nat) (fs : FS) (args : Arguments) (arg : String) :
    FS × Option Err :=
  match fuel with
  | 0 => (fs, some .fuelOut)
  | fuel + 1 =>
    match fs.cmds.find? (fun c => c.name = arg ∨ arg ∈ c.aliases) with
    | some cmd => FS._parse fuel cmd args
    | none =>
      match findPosAux fs.params 0 0 with
      | some ix =>
        match _parseParam fs.name (newArg arg) ("$" ++ toString ix.1)
            (fs.params.getD ix.2 default) with
        | (p1, _, some e) => (fs.withParams (fs.params.set ix.2 p1), some e)
        | (p1, _, none) => FS._parse fuel (fs.withParams (fs.params.set ix.2 p1)) args
      | none =>
        if arg = "help" then (fs, some .help)
        else (fs, some (.unknownSubcmd fs.name arg))
termination_by structural fuel

end

/-- `parse` (flags.go:847) with adequate fuel. -/
def FS.parse (fs : FS) (args : List String) : FS × Option Err :=
  FS._parse (2 * args.length + 2) fs (newArgs args)

/-! ## Registration (addVar, Cmd, Stmt)

Registration-time `panic` calls are fatal aborts of the program; they are
modelled as `Except.error` with a `Panic` payload. -/

/-- `NoShort`: the zero byte. -/
def NoShortC : Char := Char.ofNat 0

def isNumber (c : Char) : Bool :=
  '0' ≤ c ∧ c ≤ '9'

def isLetter (c : Char) : Bool :=
  ('A' ≤ c ∧ c ≤ 'Z') ∨ ('a' ≤ c ∧ c ≤ 'z')

def isSymbol (c : Char) : Bool :=
  c ∈ ['-', '_', '.', ':', '+', '/', '@', '~', '%', '^']

def ValidShort (short : Char) : Bool :=
  short = NoShortC ∨ isNumber short ∨ isLetter short

def ValidLong (long : String) : Bool :=
  match long.toList with
  | [] => true
  | c :: rest =>
    (isNumber c ∨ isLetter c) ∧
      rest.all (fun x => isNumber x ∨ isLetter x ∨ isSymbol x)

def isSpaceC (c : Char) : Bool :=
  c = ' ' ∨ c = '\t' ∨ c = '\n' ∨ c = '\r'

/-- `strings.TrimSpace` (over the ASCII whitespace the claims need). -/
def goTrimSpace (s : String) : String :=
  String.mk (((s.toList.dropWhile isSpaceC).reverse.dropWhile isSpaceC).reverse)

/-- `strings.TrimLeft(long, "-")`. -/
def trimLeftDash (s : String) : String :=
  String.mk (s.toList.dropWhile (fun c => c = '-'))

/-- Fatal registration failures (`panic(...)` in flags.go). -/
inductive Panic where
  | invalidShort (c : Char)
  | invalidLong (s : String)
  | dupShort (s : String)
  | dupLong (s : String)
  | dupPointer (curr prev : String)
  | dftTypeMismatch (t1 t2 : String)
  | emptyCmdName
  | dashCmdName (s : String)
  | dupCmd (s : String)
deriving Repr, DecidableEq

/-- `reflect.Value.IsZero` on a default value (the model does not
distinguish Go's nil slice from an allocated empty slice; defaults in the
claims are nil or non-empty). -/
def Val.isZero : Val → Bool
  | .vInt i => i = 0
  | .vUint n => n = 0
  | .vBool b => b = false
  | .vStr s => s = ""
  | .vList xs => xs.isEmpty
  | .vMap m => m.isNone

/-- Top-level kind agreement between a default value and the declared
shape (stands in for the `t1 != t2` reflect-type comparison; widths are
not recorded inside `Val`). -/
def Val.kindMatches : Val → Shape → Bool
  | .vInt _, .sInt _ => true
  | .vUint _, .sUint _ => true
  | .vBool _, .sBool => true
  | .vStr _, .sString => true
  | .vList _, .sSlice _ => true
  | .vMap _, .sMap _ _ => true
  | _, _ => false

/-- The duplicate-name loop of `addVar` (flags.go:409-416): for each
already-registered param, a short-name collision panics first, then a
long-name collision. -/
def dupNameScan (ps : List Param) (short long : String) : Option Panic :=
  match ps with
  | [] => none
  | p :: rest =>
    if short ≠ "" ∧ p.short = short then some (.dupShort short)
    else if long ≠ "" ∧ p.long = long then some (.dupLong long)
    else dupNameScan rest short long

/-- Render an option's name for the duplicate-pointer panic message
(long form preferred, then short form, else empty). -/
def optName (short long : String) : String :=
  if long ≠ "" then "--" ++ long
  else if short ≠ "" then "-" ++ short
  else ""

/-- The resolved `options` of a registration call (`WithSliceSeperator`,
`WithKeyValueSeperator`, `WithZeroDefault` applied to the zero value). -/
structure RegOptions where
  sliceSep : String
  kvSep : String
  zeroDft : Bool
deriving Repr, DecidableEq

def noRegOptions : RegOptions :=
  { sliceSep := "", kvSep := "", zeroDft := false }

/-- `addVar` (flags.go:391) over a node's registry (`params`) and the
tree-wide pointer map (`paramOf`, shared by every node of one tree).
The `reflect.Pointer` kind check always passes in the model (destinations
are always pointers here), and the custom `Type` capability is not
modelled, so the declared type falls back to the structural name.  The
new param's pointee keeps its current (zero) value. -/
def addVar (ps : List Param) (paramOf : List (Nat × Param)) (ptrId : Nat)
    (shape : Shape) (shortByte : Char) (long : String) (dft : Option Val)
    (opts : RegOptions) : Except Panic (List Param × List (Nat × Param)) :=
  if shortByte ≠ NoShortC ∧ ¬ ValidShort shortByte then
    .error (.invalidShort shortByte)
  else
    let short := if shortByte ≠ NoShortC then String.mk [shortByte] else ""
    let long := trimLeftDash long
    if ¬ ValidLong long then .error (.invalidLong long)
    else
      match dupNameScan ps short long with
      | some pan => .error pan
      | none =>
        match paramOf.find? (fun q => q.1 = ptrId) with
        | some q => .error (.dupPointer (optName short long) (optName q.2.short q.2.long))
        | none =>
          let dftc : Except Panic (Option Val) :=
            match dft with
            | some d =>
              if opts.zeroDft then
                if ¬ Val.kindMatches d shape then
                  .error (.dftTypeMismatch (typeName shape) (typeName shape))
                else .ok (some d)
              else if d.isZero then .ok none
              else .ok (some d)
            | none => .ok none
          match dftc with
          | .error pan => .error pan
          | .ok dft =>
            let sep1 := if opts.sliceSep ≠ "" then opts.sliceSep else ","
            let sep2 := if opts.kvSep ≠ "" then opts.kvSep else ":"
            let newP : Param := { id := ptrId, shape := shape, typ := typeName shape,
                                  short := short, long := long, dft := dft,
                                  sep1 := sep1, sep2 := sep2, parsed := false,
                                  val := Shape.zero shape }
            .ok (ps ++ [newP], paramOf ++ [(ptrId, newP)])

/-- One `FlagSet` node as seen by the registration phase.  Children are
referred to by index into the world's node store so that the aliasing in
the Go code (a child list mutated through `fs.stmt`) is represented
faithfully. -/
structure NodeD where
  name : String
  desc : String
  aliases : List String
  params : List Param
  cmds : List Nat
  parent : Option Nat
  stmt : Option Nat
deriving Repr

instance : Inhabited NodeD :=
  ⟨⟨"", "", [], [], [], none, none⟩⟩

/-- The heap of nodes of one command tree plus the shared `paramOf` map. -/
structure World where
  nodes : List NodeD
  paramOf : List (Nat × Param)
deriving Repr

instance : Inhabited World := ⟨⟨[], []⟩⟩

/-- `New` (flags.go:61). -/
def NewW (name desc : String) : World :=
  { nodes := [{ name := name, desc := desc, aliases := [], params := [], cmds := [],
                parent := none, stmt := none }],
    paramOf := [] }

/-- `addVar` applied to node `fsId` of a world. -/
def addVarW (w : World) (fsId ptrId : Nat) (shape : Shape) (shortByte : Char)
    (long : String) (dft : Option Val) (opts : RegOptions) : Except Panic World :=
  let fs := w.nodes.getD fsId default
  match addVar fs.params w.paramOf ptrId shape shortByte long dft opts with
  | .error pan => .error pan
  | .ok pr =>
    .ok { nodes := w.nodes.set fsId { fs with params := pr.1 }, paramOf := pr.2 }

/-- `Cmd` (flags.go:281): validate the name, snapshot the parent's current
param list into the child (copy, not alias), attach the child to
`fs.stmt` when set and to `fs` itself otherwise, and return the child.
(The middleware argument is modelled separately with the interceptor
chain.) -/
def CmdW (w : World) (fsId : Nat) (name desc : String) :
    Except Panic (World × Nat) :=
  let fs := w.nodes.getD fsId default
  let name := goTrimSpace name
  if name = "" then .error .emptyCmdName
  else if goHasPrefix name "-" then .error (.dashCmdName name)
  else if fs.cmds.any (fun ci => (w.nodes.getD ci default).name = name ∨ name ∈ fs.aliases) then
    .error (.dupCmd name)
  else
    let child : NodeD := { name := name, desc := desc, aliases := [], params := fs.params,
                           cmds := [], parent := some fsId, stmt := none }
    let childId := w.nodes.length
    let nodes := w.nodes ++ [child]
    let attachTo := match fs.stmt with | some s => s | none => fsId
    let att := nodes.getD attachTo default
    .ok ({ nodes := nodes.set attachTo { att with cmds := att.cmds ++ [childId] },
           paramOf := w.paramOf }, childId)

/-- `Stmt` (flags.go:261): a statement scope — a fresh node holding a copy
of the origin's param list and its own middleware slot, whose `stmt`
back-reference is the originating node's own `stmt` when set and the
originating node itself otherwise.  It is attached to nobody's child
list. -/
def StmtW (w : World) (fsId : Nat) : World × Nat :=
  let fs := w.nodes.getD fsId default
  let s : NodeD := { name := "", desc := fs.desc, aliases := [], params := fs.params,
                     cmds := [], parent := some fsId,
                     stmt := match fs.stmt with | some t => some t | none => some fsId }
  ({ nodes := w.nodes ++ [s], paramOf := w.paramOf }, w.nodes.length)

/-- Iterated `Stmt` starting at `origin`: the chain of statement scopes. -/
def stmtChain (w : World) (origin : Nat) : Nat → World × Nat
  | 0 => (w, origin)
  | n + 1 =>
    let ws := stmtChain w origin n
    StmtW ws.1 ws.2

/-! ## Interceptor chain (Use / Handle / chain) -/

/-- The ambient execution context: the "current command" value stashed
under the context key, plus an observable event log standing in for the
side effects of handlers and middlewares. -/
structure Ctx where
  cur : Option Nat
  log : List String
deriving Repr, DecidableEq

/-- A handler; `none` models a Go runtime panic during execution. -/
def HandlerM : Type := Ctx → Option Ctx

/-- A middleware receives the context and the next handler. -/
def MiddlewareM : Type := Ctx → HandlerM → Option Ctx

/-- A node as seen by the interceptor chain: its identity and its
registered middleware list (`fs.mws`). -/
structure FsNode where
  id : Nat
  mws : List MiddlewareM

/-- One wrapper layer produced by the loop body of `chain`
(flags.go:117-122): fix the ambient current-command to `fs`, then invoke
`fs.mws[n]` — the *node's* middleware at index `n`, exactly as the
closure in the source does — with the captured continuation.  An
out-of-range index is a Go runtime panic (`none`). -/
def wrapAt (fs : FsNode) (n : Nat) (next : HandlerM) : HandlerM :=
  fun ctx =>
    let ctx := if ctx.cur = some fs.id then ctx else { ctx with cur := some fs.id }
    match fs.mws.get? n with
    | some m => m ctx next
    | none => none

/-- `chain` (flags.go:113): wrap `h` once per index of `mws`, from the
last index inward to index 0 outermost.  Note that only `mws.length`
determines how many layers are built, while each layer reads
`fs.mws[n]`. -/
def chain (fs : FsNode) (mws : List MiddlewareM) (h : HandlerM) : HandlerM :=
  (List.range mws.length).foldr (fun i acc => wrapAt fs i acc) h

/-- `Handle` (flags.go:105): compose the terminal handler with the
call-local extra middlewares, then with each node's registered list from
the node itself up the ancestor chain (`ancestors` lists the parent
first, then the grandparent, and so on). -/
def Handle (fs : FsNode) (ancestors : List FsNode) (h : HandlerM)
    (mws : List MiddlewareM) : HandlerM :=
  (fs :: ancestors).foldl (fun acc f => chain f f.mws acc) (chain fs mws h)

/-! ## General lemmas about the codec -/

/-- The element decoder handed to the slice/map helpers by `_parseParamGo`
for a sub-shape `sh` (the recursive `fs._parseParam` call of the source). -/
def decFor (sh : Shape) (fsName arg : String) :
    Arguments → Param → Param × Arguments × Option Err :=
  fun a q => _parseParamGo sh fsName a arg q

theorem _parseParam_sInt (fsName : String) (args : Arguments) (arg : String)
    (p : Param) (w : Nat) (hs : p.shape = .sInt w) :
    _parseParam fsName args arg p =
      _parseInts fsName args arg w { p with parsed := true } := by
  unfold _parseParam
  rw [hs]
  rfl

theorem _parseParam_sUint (fsName : String) (args : Arguments) (arg : String)
    (p : Param) (w : Nat) (hs : p.shape = .sUint w) :
    _parseParam fsName args arg p =
      _parseUints fsName args arg w { p with parsed := true } := by
  unfold _parseParam
  rw [hs]
  rfl

theorem _parseParam_sBool (fsName : String) (args : Arguments) (arg : String)
    (p : Param) (hs : p.shape = .sBool) :
    _parseParam fsName args arg p =
      _parseBool fsName args arg { p with parsed := true } := by
  unfold _parseParam
  rw [hs]
  rfl

theorem _parseParam_sString (fsName : String) (args : Arguments) (arg : String)
    (p : Param) (hs : p.shape = .sString) :
    _parseParam fsName args arg p =
      _parseString fsName args arg { p with parsed := true } := by
  unfold _parseParam
  rw [hs]
  rfl

theorem _parseParam_sSlice (fsName : String) (args : Arguments) (arg : String)
    (p : Param) (e : Shape) (hs : p.shape = .sSlice e) :
    _parseParam fsName args arg p =
      (if args.align then
        _parseSliceAlign fsName args arg e (decFor e fsName arg) { p with parsed := true }
       else
        _parseSlice fsName args arg e (decFor e fsName arg) { p with parsed := true }) := by
  unfold _parseParam decFor
  rw [hs]
  rfl

theorem _parseParam_sMap (fsName : String) (args : Arguments) (arg : String)
    (p : Param) (k v : Shape) (hs : p.shape = .sMap k v) :
    _parseParam fsName args arg p =
      _parseMap fsName args arg k v (decFor k fsName arg) (decFor v fsName arg)
        { p with parsed := true } := by
  unfold _parseParam decFor
  rw [hs]
  rfl

theorem _parseInts_parsed (fsName : String) (args : Arguments) (arg : String)
    (w : Nat) (p : Param) :
    ((_parseInts fsName args arg w p).1).parsed = p.parsed := by
  unfold _parseInts
  dsimp only
  repeat' split
  all_goals rfl

theorem _parseUints_parsed (fsName : String) (args : Arguments) (arg : String)
    (w : Nat) (p : Param) :
    ((_parseUints fsName args arg w p).1).parsed = p.parsed := by
  unfold _parseUints
  dsimp only
  repeat' split
  all_goals rfl

theorem _parseBool_parsed (fsName : String) (args : Arguments) (arg : String)
    (p : Param) :
    ((_parseBool fsName args arg p).1).parsed = p.parsed := by
  unfold _parseBool
  dsimp only
  repeat' split
  all_goals rfl

theorem _parseString_parsed (fsName : String) (args : Arguments) (arg : String)
    (p : Param) :
    ((_parseString fsName args arg p).1).parsed = p.parsed := by
  unfold _parseString
  dsimp only
  repeat' split
  all_goals rfl

theorem _parseSlice_parsed (fsName : String) (args : Arguments) (arg : String)
    (e : Shape) (decE : Arguments → Param → Param × Arguments × Option Err)
    (p : Param) :
    ((_parseSlice fsName args arg e decE p).1).parsed = p.parsed := by
  unfold _parseSlice
  dsimp only
  repeat' split
  all_goals rfl

theorem _parseSliceAlignElems_parsed (fsName : String) (elems : List String)
    (arg : String) (e : Shape)
    (decE : Arguments → Param → Param × Arguments × Option Err) (p : Param) :
    ((_parseSliceAlignElems fsName elems arg e decE p).1).parsed = p.parsed := by
  induction elems generalizing p with
  | nil => rfl
  | cons s rest ih =>
    unfold _parseSliceAlignElems
    dsimp only
    split
    · rfl
    · rw [ih]

theorem _parseSliceAlign_parsed (fsName : String) (args : Arguments) (arg : String)
    (e : Shape) (decE : Arguments → Param → Param × Arguments × Option Err)
    (p : Param) :
    ((_parseSliceAlign fsName args arg e decE p).1).parsed = p.parsed := by
  unfold _parseSliceAlign
  dsimp only
  split
  · rfl
  · split
    · exact _parseSlice_parsed fsName (newArgs [args.next.1]) arg e decE p
    · exact _parseSliceAlignElems_parsed fsName (goSplit args.next.1 p.sep1) arg e decE p

theorem _parseMapPairs_parsed (fsName : String) (pairs : List String)
    (arg : String) (k v : Shape)
    (decK decV : Arguments → Param → Param × Arguments × Option Err)
    (p : Param) :
    ((_parseMapPairs fsName pairs arg k v decK decV p).1).parsed = p.parsed := by
  induction pairs generalizing p with
  | nil => rfl
  | cons pair rest ih =>
    unfold _parseMapPairs
    dsimp only
    repeat' split
    all_goals first
      | rfl
      | rw [ih]

theorem _parseMap_parsed (fsName : String) (args : Arguments) (arg : String)
    (k v : Shape)
    (decK decV : Arguments → Param → Param × Arguments × Option Err)
    (p : Param) :
    ((_parseMap fsName args arg k v decK decV p).1).parsed = p.parsed := by
  unfold _parseMap
  dsimp only
  split
  · rfl
  · split
    · rfl
    · exact _parseMapPairs_parsed fsName (goSplit args.next.1 p.sep1) arg k v decK decV p

/-- The kind dispatch never touches the supplied flag. -/
theorem _parseParamGo_parsed (sh : Shape) (fsName : String) (args : Arguments)
    (arg : String) (p : Param) :
    ((_parseParamGo sh fsName args arg p).1).parsed = p.parsed := by
  cases sh with
  | sInt w => exact _parseInts_parsed fsName args arg w p
  | sUint w => exact _parseUints_parsed fsName args arg w p
  | sBool => exact _parseBool_parsed fsName args arg p
  | sString => exact _parseString_parsed fsName args arg p
  | sSlice e =>
    unfold _parseParamGo
    split
    · exact _parseSliceAlign_parsed fsName args arg e _ p
    · exact _parseSlice_parsed fsName args arg e _ p
  | sMap k v => exact _parseMap_parsed fsName args arg k v _ _ p

/-- `_parseParam` marks the option supplied no matter how decoding goes:
the returned param always has `parsed = true`, error or not. -/
theorem _parseParam_parsed (fsName : String) (args : Arguments) (arg : String)
    (p : Param) : ((_parseParam fsName args arg p).1).parsed = true := by
  unfold _parseParam
  rw [_parseParamGo_parsed]

/-- `parseInt10` only succeeds inside the signed 64-bit range. -/
theorem parseInt10_ok_range (s : String) (i : Int) (h : parseInt10 s = .ok i) :
    -(2 ^ 63) ≤ i ∧ i < 2 ^ 63 := by
  unfold parseInt10 at h
  dsimp only at h
  repeat' split at h
  all_goals first
    | (injection h with h; omega)
    | (injection h)

/-- Storing into a width-`w` signed destination and re-reading is the
identity exactly on the two's-complement range of that width. -/
theorem wrapInt_eq_self_iff (w : Nat) (hw : 0 < w) (i : Int) :
    wrapInt w i = i ↔ (-(2 ^ (w - 1)) ≤ i ∧ i < 2 ^ (w - 1)) := by
  have hpow : (2 : Int) ^ w = 2 * 2 ^ (w - 1) := by
    conv_lhs => rw [show w = (w - 1) + 1 by omega]
    rw [pow_succ]
    ring
  have hppos : (0 : Int) < 2 ^ (w - 1) := by positivity
  unfold wrapInt
  constructor
  · intro h
    have hn : 0 ≤ (i + 2 ^ (w - 1)) % 2 ^ w :=
      Int.emod_nonneg _ (by positivity)
    have hl : (i + 2 ^ (w - 1)) % 2 ^ w < 2 ^ w :=
      Int.emod_lt_of_pos _ (by positivity)
    omega
  · intro h
    have h2 : (i + 2 ^ (w - 1)) % 2 ^ w = i + 2 ^ (w - 1) :=
      Int.emod_eq_of_lt (by omega) (by omega)
    omega

/-- Storing into a width-`w` unsigned destination and re-reading is the
identity exactly below `2 ^ w`. -/
theorem wrapUint_eq_self_iff (w n : Nat) : wrapUint w n = n ↔ n < 2 ^ w := by
  unfold wrapUint
  constructor
  · intro h
    rw [← h]
    exact Nat.mod_lt _ (by positivity)
  · exact Nat.mod_eq_of_lt

/-- Behavior of `_parseInts` on a fresh cursor holding `s` first: parse
failures propagate; a parsed value is stored wrapped at width `w` and
compared back, a mismatch reporting an overflow naming `p.typ`. -/
theorem _parseInts_spec (fsName arg s : String) (rest : List String)
    (al : Bool) (w : Nat) (p : Param) :
    (∀ i : Int, parseInt10 s = .ok i →
      _parseInts fsName ⟨s :: rest, 0, al⟩ arg w p =
        ({ p with val := .vInt (wrapInt w i) }, ⟨s :: rest, 1, al⟩,
         if wrapInt w i = i then none
         else some (.overflow fsName arg i p.typ)))
  ∧ (∀ e : NumErr, parseInt10 s = .error e →
      _parseInts fsName ⟨s :: rest, 0, al⟩ arg w p =
        (p, ⟨s :: rest, 1, al⟩, some (numErrToErr fsName arg s e))) := by
  constructor
  · intro i h
    unfold _parseInts
    simp [Arguments.atEnd, Arguments.next, h]
    split <;> simp
  · intro e h
    unfold _parseInts
    simp [Arguments.atEnd, Arguments.next, h]

/-- Behavior of `_parseUints` on a fresh cursor holding `s` first. -/
theorem _parseUints_spec (fsName arg s : String) (rest : List String)
    (al : Bool) (w : Nat) (p : Param) :
    (∀ n : Nat, parseUint10 s = .ok n →
      _parseUints fsName ⟨s :: rest, 0, al⟩ arg w p =
        ({ p with val := .vUint (wrapUint w n) }, ⟨s :: rest, 1, al⟩,
         if wrapUint w n = n then none
         else some (.overflowU fsName arg n p.typ)))
  ∧ (∀ e : NumErr, parseUint10 s = .error e →
      _parseUints fsName ⟨s :: rest, 0, al⟩ arg w p =
        (p, ⟨s :: rest, 1, al⟩, some (numErrToErr fsName arg s e))) := by
  constructor
  · intro n h
    unfold _parseUints
    simp [Arguments.atEnd, Arguments.next, h]
    split <;> simp
  · intro e h
    unfold _parseUints
    simp [Arguments.atEnd, Arguments.next, h]

/-! ## Concrete fixtures used by the claim theorems -/

/-- A boolean option (short `b`, long `bool`) on a node named `t`. -/
def bP : Param :=
  { id := 1, shape := .sBool, typ := "bool", short := "b", long := "bool",
    dft := none, sep1 := ",", sep2 := ":", parsed := false, val := .vBool false }

def fsB : FS := .node "t" [] [bP] []

/-- An `int64` option (short `i`, long `int`) with default `7`. -/
def iP : Param :=
  { id := 5, shape := .sInt 64, typ := "int64", short := "i", long := "int",
    dft := some (.vInt 7), sep1 := ",", sep2 := ":", parsed := false, val := .vInt 0 }

def fsI : FS := .node "t" [] [iP] []

/-- An `int8` option (short `i`). -/
def i8P : Param :=
  { id := 6, shape := .sInt 8, typ := "int8", short := "i", long := "",
    dft := none, sep1 := ",", sep2 := ":", parsed := false, val := .vInt 0 }

def fsI8 : FS := .node "t" [] [i8P] []

/-- A `uint8` option (short `u`). -/
def u8P : Param :=
  { id := 7, shape := .sUint 8, typ := "uint8", short := "u", long := "",
    dft := none, sep1 := ",", sep2 := ":", parsed := false, val := .vUint 0 }

/-! ## Claim theorems -/

/-- C6: every signed or unsigned integer option parses its token in base 10
at 64-bit width (`parseInt10`/`parseUint10`), stores the value into the
width-`w` destination and re-reads it (`wrapInt`/`wrapUint`); the re-read
value equals the parsed one exactly on the width's range, and a mismatch
fails with an overflow error naming the option's declared type, while an
unparsable token fails with the underlying parse error. -/
theorem c6_int_decode_overflow :
    (∀ (w : Nat), 0 < w → ∀ i : Int,
        wrapInt w i = i ↔ (-(2 ^ (w - 1)) ≤ i ∧ i < 2 ^ (w - 1)))
  ∧ (∀ w n : Nat, wrapUint w n = n ↔ n < 2 ^ w)
  ∧ (∀ (fsName arg s : String) (rest : List String) (al : Bool) (w : Nat)
        (p : Param) (i : Int), parseInt10 s = .ok i →
        _parseInts fsName ⟨s :: rest, 0, al⟩ arg w p =
          ({ p with val := .vInt (wrapInt w i) }, ⟨s :: rest, 1, al⟩,
           if wrapInt w i = i then none else some (.overflow fsName arg i p.typ)))
  ∧ (∀ (fsName arg s : String) (rest : List String) (al : Bool) (w : Nat)
        (p : Param) (e : NumErr), parseInt10 s = .error e →
        _parseInts fsName ⟨s :: rest, 0, al⟩ arg w p =
          (p, ⟨s :: rest, 1, al⟩, some (numErrToErr fsName arg s e)))
  ∧ (∀ (fsName arg s : String) (rest : List String) (al : Bool) (w : Nat)
        (p : Param) (n : Nat), parseUint10 s = .ok n →
        _parseUints fsName ⟨s :: rest, 0, al⟩ arg w p =
          ({ p with val := .vUint (wrapUint w n) }, ⟨s :: rest, 1, al⟩,
           if wrapUint w n = n then none else some (.overflowU fsName arg n p.typ)))
  ∧ (∀ (fsName arg s : String) (rest : List String) (al : Bool) (w : Nat)
        (p : Param) (e : NumErr), parseUint10 s = .error e →
        _parseUints fsName ⟨s :: rest, 0, al⟩ arg w p =
          (p, ⟨s :: rest, 1, al⟩, some (numErrToErr fsName arg s e)))
  ∧ (∀ (fsName arg : String) (args : Arguments) (p : Param) (w : Nat),
        p.shape = .sInt w →
        _parseParam fsName args arg p =
          _parseInts fsName args arg w { p with parsed := true })
  ∧ (∀ (fsName arg : String) (args : Arguments) (p : Param) (w : Nat),
        p.shape = .sUint w →
        _parseParam fsName args arg p =
          _parseUints fsName args arg w { p with parsed := true })
  ∧ (FS.parse fsI8 ["-i", "128"]).2 = some (.overflow "t" "-i" 128 "int8")
  ∧ (FS.parse fsI8 ["-i", "abc"]).2 = some (.synErr "t" "-i" "abc") := by
  refine ⟨wrapInt_eq_self_iff, wrapUint_eq_self_iff, ?_, ?_, ?_, ?_,
          ?_, ?_, by rfl, by rfl⟩
  · intro fsName arg s rest al w p i h
    exact (_parseInts_spec fsName arg s rest al w p).1 i h
  · intro fsName arg s rest al w p e h
    exact (_parseInts_spec fsName arg s rest al w p).2 e h
  · intro fsName arg s rest al w p n h
    exact (_parseUints_spec fsName arg s rest al w p).1 n h
  · intro fsName arg s rest al w p e h
    exact (_parseUints_spec fsName arg s rest al w p).2 e h
  · intro fsName arg args p w hs
    exact _parseParam_sInt fsName args arg p w hs
  · intro fsName arg args p w hs
    exact _parseParam_sUint fsName args arg p w hs

/-- Witness for C6 at concrete inputs: `128` overflows an `int8` (stored
as its wrapped value, error naming `int8`), `abc` is a syntax error, `256`
overflows a `uint8`, and an `int8`-shaped param dispatches to
`_parseInts`. -/
theorem c6_int_decode_overflow_witness :
    (wrapInt 8 128 = 128 ↔ (-(2 ^ (8 - 1)) ≤ (128 : Int) ∧ (128 : Int) < 2 ^ (8 - 1)))
  ∧ _parseInts "t" ⟨["128"], 0, false⟩ "-i" 8 i8P =
      ({ i8P with val := .vInt (wrapInt 8 128) }, ⟨["128"], 1, false⟩,
       if wrapInt 8 128 = 128 then none else some (.overflow "t" "-i" 128 i8P.typ))
  ∧ _parseInts "t" ⟨["abc"], 0, false⟩ "-i" 8 i8P =
      (i8P, ⟨["abc"], 1, false⟩, some (numErrToErr "t" "-i" "abc" .syn))
  ∧ _parseUints "t" ⟨["256"], 0, false⟩ "-u" 8 u8P =
      ({ u8P with val := .vUint (wrapUint 8 256) }, ⟨["256"], 1, false⟩,
       if wrapUint 8 256 = 256 then none else some (.overflowU "t" "-u" 256 u8P.typ))
  ∧ _parseParam "t" (newArgs ["5"]) "-i" i8P =
      _parseInts "t" (newArgs ["5"]) "-i" 8 { i8P with parsed := true } :=
  ⟨c6_int_decode_overflow.1 8 (by norm_num) 128,
   c6_int_decode_overflow.2.2.1 "t" "-i" "128" [] false 8 i8P 128 (by rfl),
   c6_int_decode_overflow.2.2.2.1 "t" "-i" "abc" [] false 8 i8P .syn (by rfl),
   c6_int_decode_overflow.2.2.2.2.1 "t" "-u" "256" [] false 8 u8P 256 (by rfl),
   c6_int_decode_overflow.2.2.2.2.2.2.1 "t" "-i" (newArgs ["5"]) i8P 8 rfl⟩


/-- C1: for a boolean-shaped option, multi-token (non-aligned) mode sets the
destination true on mere presence and consumes no value token; aligned mode
requires the single value token to be exactly `true` or `false` (setting the
destination accordingly) and any other token is a decode error; consequently
parsing `-b false` fails because `false` is left over as a separate token
(an unknown sub-command), while `--bool=false` sets the option false and a
bare `-b` sets it true. -/
theorem c1_bool_decode :
    (∀ (fsName arg : String) (args : Arguments) (p : Param),
        p.shape = .sBool → args.align = false →
        _parseParam fsName args arg p =
          ({ p with parsed := true, val := .vBool true }, args, none))
  ∧ (∀ (fsName arg : String) (args : Arguments) (p : Param),
        p.shape = .sBool → args.align = true →
        _parseParam fsName args arg p =
          (if (args.next).1 = "true" then
             ({ p with parsed := true, val := .vBool true }, (args.next).2, none)
           else if (args.next).1 = "false" then
             ({ p with parsed := true, val := .vBool false }, (args.next).2, none)
           else ({ p with parsed := true }, (args.next).2,
                 some (.invalidBool fsName arg (args.next).1))))
  ∧ (FS.parse fsB ["-b", "false"]).2 = some (.unknownSubcmd "t" "false")
  ∧ ((FS.parse fsB ["--bool=false"]).1.params.getD 0 default).val = .vBool false
  ∧ (FS.parse fsB ["--bool=false"]).2 = none
  ∧ ((FS.parse fsB ["-b"]).1.params.getD 0 default).val = .vBool true
  ∧ (FS.parse fsB ["-b"]).2 = none := by
  refine ⟨?_, ?_, by rfl, by rfl, by rfl, by rfl, by rfl⟩
  · intro fsName arg args p hs hal
    rw [_parseParam_sBool fsName args arg p hs]
    unfold _parseBool
    rw [hal]
    simp
  · intro fsName arg args p hs hal
    rw [_parseParam_sBool fsName args arg p hs]
    unfold _parseBool
    rw [hal]
    simp

/-- Witness for C1 at concrete inputs: presence of `-b` in multi mode sets
true without consuming `["false"]`, and the aligned token `x` is an invalid
boolean. -/
theorem c1_bool_decode_witness :
    _parseParam "t" (newArgs ["false"]) "-b" bP =
      ({ bP with parsed := true, val := .vBool true }, newArgs ["false"], none)
  ∧ _parseParam "t" (newArg "x") "--bool" bP =
      (if ((newArg "x").next).1 = "true" then
         ({ bP with parsed := true, val := .vBool true }, ((newArg "x").next).2, none)
       else if ((newArg "x").next).1 = "false" then
         ({ bP with parsed := true, val := .vBool false }, ((newArg "x").next).2, none)
       else ({ bP with parsed := true }, ((newArg "x").next).2,
             some (.invalidBool "t" "--bool" ((newArg "x").next).1))) :=
  ⟨c1_bool_decode.1 "t" "-b" (newArgs ["false"]) bP rfl rfl,
   c1_bool_decode.2.1 "t" "--bool" (newArg "x") bP rfl rfl⟩

/-- An `int64` option with short name `y` and no long name. -/
def yP : Param :=
  { id := 2, shape := .sInt 64, typ := "int64", short := "y", long := "",
    dft := none, sep1 := ",", sep2 := ":", parsed := false, val := .vInt 0 }

/-- An `int64` option with short name `z` and no long name. -/
def zP : Param :=
  { id := 3, shape := .sInt 64, typ := "int64", short := "z", long := "",
    dft := none, sep1 := ",", sep2 := ":", parsed := false, val := .vInt 0 }

/-- A node with a boolean `b` and two non-boolean shorts `y`, `z`. -/
def fsC : FS := .node "t" [] [bP, yP, zP] []

/-- C3: a clustered token `-xyz` processes each character against the
registered shorts: boolean-shaped matches are set true immediately,
non-boolean matches are collected in encounter order and their values are
decoded from the remaining input in reverse encounter order after the
cluster is validated; an unmatched character fails with an unknown-option
error unless it is `h`, which signals Help.  In particular `-yz v1 v2`
assigns `v1` to `z` and `v2` to `y` for any parsable tokens, and
`-byz 1 2` sets `b` true, `z = 1`, `y = 2`. -/
theorem c3_cluster_short_options :
    (∀ (s1 s2 : String) (i1 i2 : Int),
        parseInt10 s1 = .ok i1 → parseInt10 s2 = .ok i2 →
        _parseShort "t" [yP, zP] ⟨["-yz", s1, s2], 1, false⟩ "-yz" =
          ([{ yP with parsed := true, val := .vInt i2 },
            { zP with parsed := true, val := .vInt i1 }],
           ⟨["-yz", s1, s2], 3, false⟩, none))
  ∧ (FS.parse fsC ["-byz", "1", "2"]).2 = none
  ∧ ((FS.parse fsC ["-byz", "1", "2"]).1.params.map (fun p => p.val)) =
      [.vBool true, .vInt 2, .vInt 1]
  ∧ (FS.parse fsC ["-bq"]).2 = some (.unknownOption "t" "-q")
  ∧ (FS.parse fsC ["-bh"]).2 = some .help
  ∧ ((FS.parse fsC ["-bh"]).1.params.getD 0 default).val = .vBool true := by
  refine ⟨?_, by rfl, by rfl, by rfl, by rfl, by rfl⟩
  intro s1 s2 i1 i2 h1 h2
  have hr1 := parseInt10_ok_range s1 i1 h1
  have hr2 := parseInt10_ok_range s2 i2 h2
  have hw1 : wrapInt 64 i1 = i1 := (wrapInt_eq_self_iff 64 (by norm_num) i1).2 hr1
  have hw2 : wrapInt 64 i2 = i2 := (wrapInt_eq_self_iff 64 (by norm_num) i2).2 hr2
  have hz : _parseParam "t" ⟨["-yz", s1, s2], 1, false⟩ "-yz" zP =
      ({ zP with parsed := true, val := .vInt i1 }, ⟨["-yz", s1, s2], 2, false⟩, none) := by
    rw [_parseParam_sInt "t" ⟨["-yz", s1, s2], 1, false⟩ "-yz" zP 64 rfl]
    unfold _parseInts
    simp [Arguments.atEnd, Arguments.next, h1, hw1]
  have hy : _parseParam "t" ⟨["-yz", s1, s2], 2, false⟩ "-yz" yP =
      ({ yP with parsed := true, val := .vInt i2 }, ⟨["-yz", s1, s2], 3, false⟩, none) := by
    rw [_parseParam_sInt "t" ⟨["-yz", s1, s2], 2, false⟩ "-yz" yP 64 rfl]
    unfold _parseInts
    simp [Arguments.atEnd, Arguments.next, h2, hw2]
  have hstep : _parseShort "t" [yP, zP] ⟨["-yz", s1, s2], 1, false⟩ "-yz" =
      decodeCollected "t" [yP, zP] ⟨["-yz", s1, s2], 1, false⟩ "-yz" [1, 0] := rfl
  rw [hstep]
  unfold decodeCollected
  simp only [show [yP, zP].getD 1 default = zP from rfl, hz]
  unfold decodeCollected
  simp only [show ([yP, zP].set 1 { zP with parsed := true, val := .vInt i1 }).getD 0 default
      = yP from rfl, hy]
  unfold decodeCollected
  rfl

/-- Witness for C3 at `-yz 1 2`: `z` receives `1`, `y` receives `2`. -/
theorem c3_cluster_short_options_witness :
    _parseShort "t" [yP, zP] ⟨["-yz", "1", "2"], 1, false⟩ "-yz" =
      ([{ yP with parsed := true, val := .vInt 2 },
        { zP with parsed := true, val := .vInt 1 }],
       ⟨["-yz", "1", "2"], 3, false⟩, none) :=
  c3_cluster_short_options.1 "1" "2" 1 2 (by rfl) (by rfl)

/-- Decoding a list of aligned string elements appends exactly their
`vStr` values in order. -/
theorem sliceAlignElems_string (fsName arg : String) (elems : List String) :
    ∀ (p : Param) (xs : List Val), p.val = .vList xs →
    _parseSliceAlignElems fsName elems arg .sString (decFor .sString fsName arg) p =
      ({ p with val := .vList (xs ++ elems.map .vStr) }, none) := by
  induction elems with
  | nil => intro p xs h; simp [_parseSliceAlignElems, ← h]
  | cons s rest ih =>
    intro p xs h
    unfold _parseSliceAlignElems
    dsimp only [decFor, _parseParamGo]
    unfold _parseString
    norm_num [Arguments.atEnd, newArg, Arguments.next]
    rw [ih { p with val := Val.appendElem p.val (.vStr s) } (xs ++ [.vStr s])
        (by rw [h]; rfl)]
    simp [h, Val.appendElem]

/-- A slice option (short `s`, long `slice`) of `int64` elements with
default `[-1, -2, -3]`. -/
def sP : Param :=
  { id := 4, shape := .sSlice (.sInt 64), typ := "[]int64", short := "s", long := "slice",
    dft := some (.vList [.vInt (-1), .vInt (-2), .vInt (-3)]),
    sep1 := ",", sep2 := ":", parsed := false, val := .vList [] }

def fsS : FS := .node "t" [] [sP] []

/-- A slice-of-map option (long `sm`). -/
def smP : Param :=
  { id := 8, shape := .sSlice (.sMap .sString (.sUint 64)), typ := "[]map[string]uint64",
    short := "", long := "sm", dft := none, sep1 := ",", sep2 := ":",
    parsed := false, val := .vList [] }

def fsSM : FS := .node "t" [] [smP] []

/-- C4: sequence decoding.  In multi mode each flag occurrence decodes
exactly one element and appends it (so `-s 4 --slice -5 -s 6` yields
`[4, -5, 6]`); in aligned mode one token carries the whole list and is
split on the option's element separator with each piece decoded as one
element (`--slice=-7,8,-9` yields `[-7, 8, -9]`), unless the element type
is itself a mapping, in which case the whole token goes to a single
mapping-decode call appending one map element. -/
theorem c4_slice_decode :
    ((FS.parse fsS ["-s", "4", "--slice", "-5", "-s", "6"]).2 = none
      ∧ ((FS.parse fsS ["-s", "4", "--slice", "-5", "-s", "6"]).1.params.getD 0 default).val
          = .vList [.vInt 4, .vInt (-5), .vInt 6])
  ∧ ((FS.parse fsS ["--slice=-7,8,-9"]).2 = none
      ∧ ((FS.parse fsS ["--slice=-7,8,-9"]).1.params.getD 0 default).val
          = .vList [.vInt (-7), .vInt 8, .vInt (-9)])
  ∧ ((FS.parse fsS []).1.params.getD 0 default).val
      = .vList [.vInt (-1), .vInt (-2), .vInt (-3)]
  ∧ ((FS.parse fsSM ["--sm=a:1,b:2"]).2 = none
      ∧ ((FS.parse fsSM ["--sm=a:1,b:2"]).1.params.getD 0 default).val
          = .vList [.vMap (some [(.vStr "a", .vUint 1), (.vStr "b", .vUint 2)])])
  ∧ (∀ (fsName arg tok : String) (rest : List String) (al : Bool)
        (p : Param) (xs : List Val), p.val = .vList xs →
        _parseSlice fsName ⟨tok :: rest, 0, al⟩ arg .sString
            (decFor .sString fsName arg) p =
          ({ p with val := .vList (xs ++ [.vStr tok]) }, ⟨tok :: rest, 1, al⟩, none))
  ∧ (∀ (fsName arg tok : String) (p : Param) (xs : List Val), p.val = .vList xs →
        _parseSliceAlign fsName (newArg tok) arg .sString
            (decFor .sString fsName arg) p =
          ({ p with val := .vList (xs ++ (goSplit tok p.sep1).map .vStr) },
           ⟨[tok], 1, true⟩, none))
  ∧ (∀ (fsName arg tok : String) (k v : Shape)
        (decE : Arguments → Param → Param × Arguments × Option Err) (p : Param),
        _parseSliceAlign fsName (newArg tok) arg (.sMap k v) decE p =
          ((_parseSlice fsName (newArgs [tok]) arg (.sMap k v) decE p).1,
           ⟨[tok], 1, true⟩,
           (_parseSlice fsName (newArgs [tok]) arg (.sMap k v) decE p).2.2)) := by
  refine ⟨⟨by rfl, by rfl⟩, ⟨by rfl, by rfl⟩, by rfl, ⟨by rfl, by rfl⟩, ?_, ?_, ?_⟩
  · intro fsName arg tok rest al p xs h
    unfold _parseSlice
    dsimp only [decFor, _parseParamGo]
    unfold _parseString
    simp [Arguments.atEnd, Arguments.next, h, Val.appendElem]
  · intro fsName arg tok p xs h
    unfold _parseSliceAlign
    norm_num [Arguments.atEnd, newArg, Arguments.next, Shape.isMap]
    rw [sliceAlignElems_string fsName arg (goSplit tok p.sep1) p xs h]
    exact ⟨rfl, rfl⟩
  · intro fsName arg tok k v decE p
    unfold _parseSliceAlign
    rcases hres : _parseSlice fsName (newArgs [tok]) arg (.sMap k v) decE p
      with ⟨p1, a1, err⟩
    simp [Arguments.atEnd, newArg, Arguments.next, Shape.isMap, hres]

/-- Witness for C4's general conjuncts at concrete inputs: one multi-mode
occurrence appends one string element; an aligned token splits on the
separator; an aligned token for a map element shape goes through a single
slice (hence mapping) decode. -/
theorem c4_slice_decode_witness :
    _parseSlice "t" ⟨["x", "y"], 0, false⟩ "-s" .sString (decFor .sString "t" "-s") sP =
      ({ sP with val := .vList ([] ++ [.vStr "x"]) }, ⟨["x", "y"], 1, false⟩, none)
  ∧ _parseSliceAlign "t" (newArg "x,y") "-s" .sString (decFor .sString "t" "-s") sP =
      ({ sP with val := .vList ([] ++ (goSplit "x,y" sP.sep1).map .vStr) },
       ⟨["x,y"], 1, true⟩, none)
  ∧ _parseSliceAlign "t" (newArg "a:1") "--sm" (.sMap .sString (.sUint 64))
        (decFor (.sMap .sString (.sUint 64)) "t" "--sm") smP =
      ((_parseSlice "t" (newArgs ["a:1"]) "--sm" (.sMap .sString (.sUint 64))
          (decFor (.sMap .sString (.sUint 64)) "t" "--sm") smP).1,
       ⟨["a:1"], 1, true⟩,
       (_parseSlice "t" (newArgs ["a:1"]) "--sm" (.sMap .sString (.sUint 64))
          (decFor (.sMap .sString (.sUint 64)) "t" "--sm") smP).2.2) :=
  ⟨c4_slice_decode.2.2.2.2.1 "t" "-s" "x" ["y"] false sP [] rfl,
   c4_slice_decode.2.2.2.2.2.1 "t" "-s" "x,y" sP [] rfl,
   c4_slice_decode.2.2.2.2.2.2 "t" "--sm" "a:1" .sString (.sUint 64) _ smP⟩

/-- Observer: look a key up in a map-shaped destination value. -/
def Val.mapGet : Val → Val → Option Val
  | .vMap (some m), key => assocGet m key
  | _, _ => none

/-- A mapping option (short `m`, long `map`) from `uint64` to `[]string`,
no default. -/
def mP : Param :=
  { id := 9, shape := .sMap (.sUint 64) (.sSlice .sString), typ := "map[uint64][]string",
    short := "m", long := "map", dft := none, sep1 := ",", sep2 := ":",
    parsed := false, val := .vMap none }

def fsM : FS := .node "t" [] [mP] []

/-- C5: for a mapping whose value type is a sequence, writing an already
present key appends the newly decoded sequence to the existing value
instead of overwriting it — both for repeated keys inside one token
(`-m 11:x,11:y` gives key 11 mapped to `[x, y]`) and across separate
occurrences — and the destination map is allocated lazily on the first
write (no input, or an empty value token, leaves it nil). -/
theorem c5_map_of_slice_append :
    (∀ (m : List (Val × Val)) (key ori v : Val) (e : Shape),
        assocGet m key = some ori →
        Val.mapSet (.vMap (some m)) (.sSlice e) key v =
          .vMap (some (assocSet m key (vAppendSlice ori v))))
  ∧ (∀ (vt : Shape) (key v : Val),
        Val.mapSet (.vMap none) vt key v = .vMap (some (assocSet [] key v)))
  ∧ (FS.parse fsM ["-m", "11:x,11:y"]).2 = none
  ∧ ((FS.parse fsM ["-m", "11:x,11:y"]).1.params.getD 0 default).val.mapGet (.vUint 11)
      = some (.vList [.vStr "x", .vStr "y"])
  ∧ ((FS.parse fsM ["-m", "11:x", "-m", "11:y"]).1.params.getD 0 default).val.mapGet
        (.vUint 11)
      = some (.vList [.vStr "x", .vStr "y"])
  ∧ ((FS.parse fsM []).1.params.getD 0 default).val = .vMap none
  ∧ ((FS.parse fsM ["-m", ""]).1.params.getD 0 default).val = .vMap none
  ∧ ((FS.parse fsM ["-m", "11:x"]).1.params.getD 0 default).val
      = .vMap (some [(.vUint 11, .vList [.vStr "x"])]) := by
  refine ⟨?_, ?_, by rfl, by rfl, by rfl, by rfl, by rfl, by rfl⟩
  · intro m key ori v e h
    unfold Val.mapSet
    simp [h]
  · intro vt key v
    cases vt <;> simp [Val.mapSet, assocGet]

/-- Witness for C5's general conjuncts at concrete values: appending to an
existing key, and the lazy first allocation. -/
theorem c5_map_of_slice_append_witness :
    Val.mapSet (.vMap (some [(.vUint 11, .vList [.vStr "x"])])) (.sSlice .sString)
        (.vUint 11) (.vList [.vStr "y"]) =
      .vMap (some (assocSet [(.vUint 11, .vList [.vStr "x"])] (.vUint 11)
        (vAppendSlice (.vList [.vStr "x"]) (.vList [.vStr "y"]))))
  ∧ Val.mapSet (.vMap none) (.sSlice .sString) (.vUint 11) (.vList [.vStr "x"]) =
      .vMap (some (assocSet [] (.vUint 11) (.vList [.vStr "x"]))) :=
  ⟨c5_map_of_slice_append.1 [(.vUint 11, .vList [.vStr "x"])] (.vUint 11)
      (.vList [.vStr "x"]) (.vList [.vStr "y"]) .sString rfl,
   c5_map_of_slice_append.2.1 (.sSlice .sString) (.vUint 11) (.vList [.vStr "x"])⟩

/-- An `int64` option (short `c`, long `count`) for the registration
claims. -/
def c7p : Param :=
  { id := 10, shape := .sInt 64, typ := "int64", short := "c", long := "count",
    dft := none, sep1 := ",", sep2 := ":", parsed := false, val := .vInt 0 }

/-- A one-character string is never empty. -/
theorem stringMk_singleton_ne_empty (c : Char) : String.mk [c] ≠ "" := by
  intro h
  have h2 : ([c] : List Char) = [] := congrArg String.data h
  simp at h2

/-- If the duplicate-name scan passes, no registered param collides on the
short or the long name. -/
theorem dupNameScan_none : ∀ (ps : List Param) (short long : String),
    dupNameScan ps short long = none →
    ∀ p ∈ ps, ¬(short ≠ "" ∧ p.short = short) ∧ ¬(long ≠ "" ∧ p.long = long) := by
  intro ps short long
  induction ps with
  | nil =>
    intro _ p hp
    simp at hp
  | cons p rest ih =>
    intro h q hq
    unfold dupNameScan at h
    split at h
    next => exact absurd h (by simp)
    next hc1 =>
      split at h
      next => exact absurd h (by simp)
      next hc2 =>
        rcases List.mem_cons.mp hq with rfl | hq
        · exact ⟨hc1, hc2⟩
        · exact ih h q hq

/-- C7: registering an option fails fatally whenever its short name equals
an already-registered short name, or its (dash-trimmed) long name equals
an already-registered long name, or its destination pointer is already
registered — for every existing registry and every combination of the new
registration's remaining arguments. -/
theorem c7_dup_registration_fatal :
    ∀ (ps : List Param) (paramOf : List (Nat × Param)) (ptrId : Nat)
      (shape : Shape) (shortByte : Char) (long : String) (dft : Option Val)
      (opts : RegOptions),
      ((shortByte ≠ NoShortC ∧ ∃ p ∈ ps, p.short = String.mk [shortByte])
        ∨ (trimLeftDash long ≠ "" ∧ ∃ p ∈ ps, p.long = trimLeftDash long)
        ∨ (∃ q ∈ paramOf, q.1 = ptrId)) →
      ∃ pan, addVar ps paramOf ptrId shape shortByte long dft opts = .error pan := by
  intro ps paramOf ptrId shape shortByte long dft opts hdup
  unfold addVar
  split
  next => exact ⟨_, rfl⟩
  next =>
    dsimp only
    split
    next => exact ⟨_, rfl⟩
    next =>
      split
      next => exact ⟨_, rfl⟩
      next hscan =>
        split
        next => exact ⟨_, rfl⟩
        next hfind =>
          exfalso
          rcases hdup with ⟨hsb, p, hp, hshort⟩ | ⟨hlng, p, hp, hlong⟩ | ⟨q, hq, hid⟩
          · have hchar := (dupNameScan_none ps _ _ hscan p hp).1
            rw [if_pos hsb] at hchar
            exact hchar ⟨stringMk_singleton_ne_empty shortByte, hshort⟩
          · exact (dupNameScan_none ps _ _ hscan p hp).2 ⟨hlng, hlong⟩
          · have hnone := List.find?_eq_none.mp hfind q hq
            simp at hnone
            exact hnone hid

/-- Witness for C7 at a concrete registry: a second registration that
reuses the short name `c`, the long name `count`, or the destination
pointer `10`, each aborts. -/
theorem c7_dup_registration_fatal_witness :
    (∃ pan, addVar [c7p] [(10, c7p)] 11 (.sInt 64) 'c' "other" none noRegOptions
        = .error pan)
  ∧ (∃ pan, addVar [c7p] [(10, c7p)] 11 (.sInt 64) 'x' "count" none noRegOptions
        = .error pan)
  ∧ (∃ pan, addVar [c7p] [(10, c7p)] 10 (.sInt 64) 'x' "other" none noRegOptions
        = .error pan) :=
  ⟨c7_dup_registration_fatal [c7p] [(10, c7p)] 11 (.sInt 64) 'c' "other" none noRegOptions
      (Or.inl ⟨by decide, c7p, by simp, rfl⟩),
   c7_dup_registration_fatal [c7p] [(10, c7p)] 11 (.sInt 64) 'x' "count" none noRegOptions
      (Or.inr (Or.inl ⟨by decide, c7p, by simp, rfl⟩)),
   c7_dup_registration_fatal [c7p] [(10, c7p)] 10 (.sInt 64) 'x' "other" none noRegOptions
      (Or.inr (Or.inr ⟨(10, c7p), by simp, rfl⟩))⟩

theorem list_getD_append_self {α} [Inhabited α] (l : List α) (x : α) :
    (l ++ [x]).getD l.length default = x := by
  induction l with
  | nil => rfl
  | cons a rest ih => simpa using ih

theorem list_getD_append_lt {α} [Inhabited α] (l : List α) (x : α) (i : Nat)
    (h : i < l.length) : (l ++ [x]).getD i default = l.getD i default := by
  induction l generalizing i with
  | nil => simp at h
  | cons a rest ih =>
    cases i with
    | zero => rfl
    | succ i => simpa using ih i (by simpa using h)

theorem list_getD_set_self {α} [Inhabited α] (l : List α) (i : Nat) (x : α)
    (h : i < l.length) : (l.set i x).getD i default = x := by
  induction l generalizing i with
  | nil => simp at h
  | cons a rest ih =>
    cases i with
    | zero => rfl
    | succ i => simpa using ih i (by simpa using h)

theorem list_getD_set_ne {α} [Inhabited α] (l : List α) (i j : Nat) (x : α)
    (h : i ≠ j) : (l.set i x).getD j default = l.getD j default := by
  induction l generalizing i j with
  | nil => rfl
  | cons a rest ih =>
    cases i with
    | zero =>
      cases j with
      | zero => exact absurd rfl h
      | succ j => rfl
    | succ i =>
      cases j with
      | zero => rfl
      | succ j => simpa using ih i j (by omega)

/-- The worlds of the C8 scenario: a root, a sibling created before the
registration of `-c`, the registration of `-c` on the root, a child
created after it, and a registration of `-x` on the child. -/
def c8w0 : World := NewW "root" ""

def c8s1 : World × Nat := (CmdW c8w0 0 "sib" "").toOption.getD default

def c8w2 : World :=
  (addVarW c8s1.1 0 20 (.sInt 64) 'c' "" none noRegOptions).toOption.getD default

def c8s3 : World × Nat := (CmdW c8w2 0 "child" "").toOption.getD default

def c8w4 : World :=
  (addVarW c8s3.1 c8s3.2 21 (.sInt 64) 'x' "" none noRegOptions).toOption.getD default

/-- C8: creating a child snapshots the parent's current option list by
value: any successful `Cmd` gives the child exactly the parent's current
params and leaves every pre-existing node's params untouched, and any
successful registration on one node leaves every other node's params
untouched.  Concretely: a sibling created before the parent registered
`-c` does not have it, a child created after does (and parses `-c 5`),
and `-x` registered on the child appears neither on the parent nor on the
sibling. -/
theorem c8_registry_snapshot :
    (∀ (w : World) (fsId : Nat) (name desc : String) (w' : World) (c : Nat),
        CmdW w fsId name desc = .ok (w', c) →
        (w'.nodes.getD c default).params = (w.nodes.getD fsId default).params)
  ∧ (∀ (w : World) (fsId : Nat) (name desc : String) (w' : World) (c : Nat)
        (j : Nat), CmdW w fsId name desc = .ok (w', c) → j < w.nodes.length →
        (w'.nodes.getD j default).params = (w.nodes.getD j default).params)
  ∧ (∀ (w : World) (fsId ptrId : Nat) (shape : Shape) (shortByte : Char)
        (long : String) (dft : Option Val) (opts : RegOptions) (w' : World)
        (j : Nat), addVarW w fsId ptrId shape shortByte long dft opts = .ok w' →
        j ≠ fsId →
        (w'.nodes.getD j default).params = (w.nodes.getD j default).params)
  ∧ (c8w4.nodes.getD c8s3.2 default).params.map (fun p => p.short) = ["c", "x"]
  ∧ (c8w4.nodes.getD c8s1.2 default).params = []
  ∧ (c8w4.nodes.getD 0 default).params.map (fun p => p.short) = ["c"]
  ∧ ((FS.parse (.node "child" [] (c8w4.nodes.getD c8s3.2 default).params [])
        ["-c", "5"]).1.params.map (fun p => p.val) = [.vInt 5, .vInt 0]
      ∧ (FS.parse (.node "child" [] (c8w4.nodes.getD c8s3.2 default).params [])
          ["-c", "5"]).2 = none) := by
  refine ⟨?_, ?_, ?_, by rfl, by rfl, by rfl, ⟨by rfl, by rfl⟩⟩
  · intro w fsId name desc w' c h
    unfold CmdW at h
    dsimp only at h
    split at h
    next => exact absurd h (by simp)
    next =>
      split at h
      next => exact absurd h (by simp)
      next =>
        split at h
        next => exact absurd h (by simp)
        next =>
          injection h with h
          injection h with h1 h2
          subst h1
          subst h2
          dsimp only
          by_cases hat : (match (w.nodes.getD fsId default).stmt with
              | some s => s | none => fsId) = w.nodes.length
          · rw [hat, list_getD_set_self _ _ _ (by simp), list_getD_append_self]
          · rw [list_getD_set_ne _ _ _ _ hat, list_getD_append_self]
  · intro w fsId name desc w' c j h hj
    unfold CmdW at h
    dsimp only at h
    split at h
    next => exact absurd h (by simp)
    next =>
      split at h
      next => exact absurd h (by simp)
      next =>
        split at h
        next => exact absurd h (by simp)
        next =>
          injection h with h
          injection h with h1 h2
          subst h1
          subst h2
          dsimp only
          by_cases hat : (match (w.nodes.getD fsId default).stmt with
              | some s => s | none => fsId) = j
          · rw [hat, list_getD_set_self _ _ _ (by simp; omega),
              list_getD_append_lt _ _ _ hj]
          · rw [list_getD_set_ne _ _ _ _ hat, list_getD_append_lt _ _ _ hj]
  · intro w fsId ptrId shape shortByte long dft opts w' j h hj
    unfold addVarW at h
    dsimp only at h
    split at h
    next => exact absurd h (by simp)
    next pr heq =>
      injection h with h
      subst h
      dsimp only
      rw [list_getD_set_ne _ _ _ _ (fun hh => hj hh.symm)]

/-- Witness for C8's general conjuncts at the concrete scenario worlds. -/
theorem c8_registry_snapshot_witness :
    ((c8s3.1.nodes.getD c8s3.2 default).params = (c8w2.nodes.getD 0 default).params)
  ∧ ((c8s1.1.nodes.getD 0 default).params = (c8w0.nodes.getD 0 default).params)
  ∧ ((c8w4.nodes.getD 0 default).params = (c8s3.1.nodes.getD 0 default).params) :=
  ⟨c8_registry_snapshot.1 c8w2 0 "child" "" c8s3.1 c8s3.2 (by rfl),
   c8_registry_snapshot.2.1 c8w0 0 "sib" "" c8s1.1 c8s1.2 0 (by rfl) (by decide),
   c8_registry_snapshot.2.2.1 c8s3.1 c8s3.2 21 (.sInt 64) 'x' "" none noRegOptions
     c8w4 0 (by rfl) (by decide)⟩

/-- Invariant of the statement-scope chain: the origin's node is never
modified, indices stay in range, and every scope after the origin itself
has its `stmt` back-reference pointing at the origin. -/
theorem stmtChain_inv (w : World) (origin : Nat)
    (hlt : origin < w.nodes.length)
    (horg : (w.nodes.getD origin default).stmt = none) :
    ∀ n : Nat,
      origin < (stmtChain w origin n).1.nodes.length
      ∧ (stmtChain w origin n).1.nodes.getD origin default
          = w.nodes.getD origin default
      ∧ (stmtChain w origin n).2 < (stmtChain w origin n).1.nodes.length
      ∧ (n = 0 → (stmtChain w origin n).2 = origin)
      ∧ (0 < n →
          ((stmtChain w origin n).1.nodes.getD (stmtChain w origin n).2
              default).stmt = some origin) := by
  intro n
  induction n with
  | zero =>
    exact ⟨hlt, rfl, hlt, fun _ => rfl, fun h => absurd h (by omega)⟩
  | succ n ih =>
    obtain ⟨ih1, ih2, ih3, ih4, ih5⟩ := ih
    unfold stmtChain StmtW
    dsimp only
    refine ⟨?_, ?_, ?_, ?_, ?_⟩
    · simp
      omega
    · rw [list_getD_append_lt _ _ _ ih1]
      exact ih2
    · simp
    · intro h
      exact absurd h (by omega)
    · intro _
      rw [list_getD_append_self]
      dsimp only
      by_cases h0 : n = 0
      · subst h0
        rw [ih4 rfl, ih2, horg]
      · rw [ih5 (by omega)]

/-- The C9 scenario: a chain of two statement scopes over a fresh root,
then a sub-command registered through the second scope. -/
def c9w : World := NewW "root" ""

def c9s2 : World × Nat := stmtChain c9w 0 2

def c9r : World × Nat := (CmdW c9s2.1 c9s2.2 "kid" "").toOption.getD default

/-- C9: in a chain of statement scopes built over an origin node, every
scope's `stmt` back-reference points at the origin, so registering a
sub-command through any scope of the chain attaches the child to the
origin's sub-command list (making it routable from the origin) while the
registering scope itself remains the child's parent. -/
theorem c9_stmt_attach :
    (∀ (w : World) (origin : Nat), origin < w.nodes.length →
        (w.nodes.getD origin default).stmt = none →
        ∀ (n : Nat) (name desc : String) (w' : World) (c : Nat),
          ((stmtChain w origin (n + 1)).1.nodes.getD
              (stmtChain w origin (n + 1)).2 default).stmt = some origin
          ∧ (CmdW (stmtChain w origin (n + 1)).1 (stmtChain w origin (n + 1)).2
                name desc = .ok (w', c) →
              (w'.nodes.getD c default).parent
                  = some (stmtChain w origin (n + 1)).2
                ∧ c ∈ (w'.nodes.getD origin default).cmds))
  ∧ (c9s2.1.nodes.getD c9s2.2 default).stmt = some 0
  ∧ (c9r.1.nodes.getD 0 default).cmds = [3]
  ∧ (c9r.1.nodes.getD c9r.2 default).parent = some c9s2.2
  ∧ c9r.2 = 3 := by
  refine ⟨?_, by rfl, by rfl, by rfl, by rfl⟩
  intro w origin hlt horg n name desc w' c
  obtain ⟨i1, i2, i3, _, i5⟩ := stmtChain_inv w origin hlt horg (n + 1)
  have hstmt := i5 (by omega)
  refine ⟨hstmt, ?_⟩
  intro h
  unfold CmdW at h
  dsimp only at h
  rw [hstmt] at h
  dsimp only at h
  split at h
  next => exact absurd h (by simp)
  next =>
    split at h
    next => exact absurd h (by simp)
    next =>
      split at h
      next => exact absurd h (by simp)
      next =>
        injection h with h
        injection h with h1 h2
        subst h1
        subst h2
        constructor
        · rw [list_getD_set_ne _ _ _ _ (by omega), list_getD_append_self]
        · rw [list_getD_set_self _ _ _ (by simp; omega)]
          simp

/-- Witness for C9 at the concrete two-scope chain: the second scope's
back-reference is the origin, and a child registered through it hangs off
the origin's command list with the scope as its parent. -/
theorem c9_stmt_attach_witness :
    ((stmtChain c9w 0 (1 + 1)).1.nodes.getD (stmtChain c9w 0 (1 + 1)).2
        default).stmt = some 0
  ∧ ((c9r.1.nodes.getD c9r.2 default).parent = some (stmtChain c9w 0 (1 + 1)).2
      ∧ c9r.2 ∈ (c9r.1.nodes.getD 0 default).cmds) :=
  ⟨(c9_stmt_attach.1 c9w 0 (by decide) (by rfl) 1 "kid" "" c9r.1 c9r.2).1,
   (c9_stmt_attach.1 c9w 0 (by decide) (by rfl) 1 "kid" "" c9r.1 c9r.2).2 (by rfl)⟩

/-- A middleware that logs entry (`s>`), runs its continuation, and logs
exit (`s<`). -/
def mwTrace (s : String) : MiddlewareM :=
  fun ctx next =>
    match next { ctx with log := ctx.log ++ [s ++ ">"] } with
    | some c => some { c with log := c.log ++ [s ++ "<"] }
    | none => none

/-- A terminal handler that logs `H`. -/
def hTrace : HandlerM :=
  fun ctx => some { ctx with log := ctx.log ++ ["H"] }

/-- C2 (against the claim): the layers that `Handle`'s first `chain` call
builds for the call-local extra middlewares invoke `fs.mws[n]` — the
node's registered interceptor at that index — not the extra middleware.
With no registered interceptors and one extra middleware the invocation
indexes past the end of `fs.mws` (a Go runtime panic, modelled as
`none`); with one registered interceptor `N` and one extra `X`, `N` runs
twice and `X` never runs.  The part of the claim about a node's own
registered interceptors does hold: I1, I2 registered in that order and
terminal H run as I1-enter, I2-enter, H, I2-exit, I1-exit. -/
theorem c2_handle_extra_mws_bug :
    Handle ⟨0, []⟩ [] hTrace [mwTrace "X"] ⟨none, []⟩ = none
  ∧ Handle ⟨0, [mwTrace "N"]⟩ [] hTrace [mwTrace "X"] ⟨none, []⟩ =
      some ⟨some 0, ["N>", "N>", "H", "N<", "N<"]⟩
  ∧ Handle ⟨0, [mwTrace "I1", mwTrace "I2"]⟩ [] hTrace [] ⟨none, []⟩ =
      some ⟨some 0, ["I1>", "I2>", "H", "I2<", "I1<"]⟩
  ∧ Handle ⟨1, [mwTrace "B1"]⟩ [⟨0, [mwTrace "A1"]⟩] hTrace [] ⟨none, []⟩ =
      some ⟨some 1, ["A1>", "B1>", "H", "B1<", "A1<"]⟩ :=
  ⟨rfl, rfl, rfl, rfl⟩

/-- C10: `_parseParam` marks the option supplied before attempting any
decode, so even a failed decode leaves the option counted as supplied:
`Parsed` reports true and the default-fill pass (`setDftP`) leaves a
supplied option untouched; concretely, `-i xyz` fails to decode yet the
option stays marked supplied and keeps its written-through value instead
of receiving its default `7`. -/
theorem c10_supplied_before_decode :
    (∀ (fsName : String) (args : Arguments) (arg : String) (p : Param),
        ((_parseParam fsName args arg p).1).parsed = true)
  ∧ (∀ p : Param, p.parsed = true → setDftP p = p)
  ∧ (FS.parse fsI ["-i", "xyz"]).2 = some (.synErr "t" "-i" "xyz")
  ∧ Parsed (FS.parse fsI ["-i", "xyz"]).1.params 5 = true
  ∧ ((FS.parse fsI ["-i", "xyz"]).1.params.getD 0 default).val = .vInt 0 := by
  refine ⟨_parseParam_parsed, ?_, by rfl, by rfl, by rfl⟩
  intro p hp
  unfold setDftP
  split
  · rw [hp]
    simp
  · rfl

/-- Witness for C10 at a concrete failed decode: the returned param is
marked supplied, and a supplied param passes through the default fill. -/
theorem c10_supplied_before_decode_witness :
    ((_parseParam "t" (newArgs ["xyz"]) "-i" iP).1).parsed = true
  ∧ setDftP { iP with parsed := true } = { iP with parsed := true } :=
  ⟨c10_supplied_before_decode.1 "t" (newArgs ["xyz"]) "-i" iP,
   c10_supplied_before_decode.2.1 { iP with parsed := true } rfl⟩

end Flags
